import Mathlib

/-!
Shallow embedding of `main.py` of the Odoo_backup repository (a SWAPI → Odoo
migration script), together with proofs about the pure data-processing core:
URL planning (`Generator.generate_entity_urls`), normalization
(`Planets.generate_planet_info`, `Characters.get_characters_info`), image
classification (`CharactersImage.determine_response_type` /
`upgrade_photo`), cross-reference resolution
(`Characters.upgrage_characters_photo` / `upgrade_characters_info`) and
reconciliation against the target store (`Odoo.check_entity_in_odoo` /
`upload_entity_info_into_oddo`).

Python dictionaries are modelled as association lists in insertion order
(`pyUpdate` replaces a value in place when the key is present, otherwise
appends, exactly like `dict.update` on dicts, whose keys are unique);
Python values that can be a string, an integer or `None` are modelled by
`PyVal`; code that can raise an exception is modelled in `Option`.
-/

set_option autoImplicit false
set_option maxRecDepth 8192

/-- A Python value appearing in the record dictionaries of the script:
a string, an integer, or `None`. -/
inductive PyVal where
  | str (s : String)
  | int (n : Int)
  | none
deriving DecidableEq

/-- The Python value held by an `Option String`: `None` for a missing value. -/
def pyOfOpt : Option String → PyVal
  | Option.none => PyVal.none
  | Option.some s => PyVal.str s

section PyDict

variable {K : Type} [DecidableEq K] {V : Type}

/-- `d.update({k: v})` on a Python dict in insertion order: replace the value
in place when the key is already present, otherwise append the pair.
(A Python dict never holds a duplicate key, so replacing the first
occurrence models `dict.update` faithfully.) -/
def pyUpdate : List (K × V) → K → V → List (K × V)
  | [], k, v => [(k, v)]
  | p :: rest, k, v => if p.1 = k then (k, v) :: rest else p :: pyUpdate rest k v

/-- `d.get(k)`: the value of the first pair with key `k`, if any. -/
def pyGet (d : List (K × V)) (k : K) : Option V :=
  (d.find? (fun p => p.1 = k)).map Prod.snd

/-- `del d[k]` (also used to fold a deletion list). -/
def pyDel (d : List (K × V)) (k : K) : List (K × V) :=
  d.filter (fun p => p.1 ≠ k)

/-- `d.update(other)`: fold `pyUpdate` over a list of pairs. -/
def pyUpdateAll (d : List (K × V)) (l : List (K × V)) : List (K × V) :=
  l.foldl (fun d p => pyUpdate d p.1 p.2) d

@[simp] theorem pyGet_nil (k : K) : pyGet ([] : List (K × V)) k = none := rfl

@[simp] theorem pyGet_cons (p : K × V) (d : List (K × V)) (k : K) :
    pyGet (p :: d) k = if p.1 = k then some p.2 else pyGet d k := by
  unfold pyGet
  by_cases h : p.1 = k
  · rw [List.find?_cons_of_pos _ (by simpa using h)]
    simp [h]
  · rw [List.find?_cons_of_neg _ (by simpa using h)]
    simp [h]

theorem pyGet_pyUpdate (d : List (K × V)) (k k' : K) (v : V) :
    pyGet (pyUpdate d k v) k' = if k' = k then some v else pyGet d k' := by
  induction d with
  | nil =>
    by_cases h : k' = k <;> simp [pyUpdate, h, Ne.symm]
  | cons p rest ih =>
    by_cases hp : p.1 = k
    · rw [pyUpdate, if_pos hp]
      by_cases hk : k' = k
      · simp [hk]
      · have hpk : ¬ p.1 = k' := fun h => hk (h ▸ hp)
        simp [hk, hpk, Ne.symm hk]
    · rw [pyUpdate, if_neg hp]
      by_cases hpk : p.1 = k'
      · have hk : ¬ k' = k := fun h => hp (h ▸ hpk)
        simp [hpk, hk]
      · simp [hpk, ih]

/-- The keys of a dict are unchanged by an update of a present key and
extended by an absent one. -/
theorem pyUpdate_keys (d : List (K × V)) (k : K) (v : V) :
    (pyUpdate d k v).map Prod.fst =
      if k ∈ d.map Prod.fst then d.map Prod.fst else d.map Prod.fst ++ [k] := by
  induction d with
  | nil => simp [pyUpdate]
  | cons p rest ih =>
    by_cases hp : p.1 = k
    · rw [pyUpdate, if_pos hp]
      simp [hp]
    · rw [pyUpdate, if_neg hp]
      by_cases hmem : k ∈ rest.map Prod.fst
      · simp [hmem, ih, Ne.symm hp]
      · simp [hmem, ih, Ne.symm hp]

/-- Updating with a fresh key appends the pair. -/
theorem pyUpdate_of_not_mem (d : List (K × V)) (k : K) (v : V)
    (h : k ∉ d.map Prod.fst) : pyUpdate d k v = d ++ [(k, v)] := by
  induction d with
  | nil => simp [pyUpdate]
  | cons p rest ih =>
    simp only [List.map_cons, List.mem_cons] at h
    push_neg at h
    rw [pyUpdate, if_neg (fun hp => h.1 hp.symm), ih h.2]
    simp

/-- Folding fresh, pairwise-distinct keys into a dict appends them in order. -/
theorem pyUpdateAll_of_disjoint (d : List (K × V)) (l : List (K × V))
    (hfresh : ∀ k ∈ l.map Prod.fst, k ∉ d.map Prod.fst)
    (hnodup : (l.map Prod.fst).Nodup) :
    pyUpdateAll d l = d ++ l := by
  induction l generalizing d with
  | nil => simp [pyUpdateAll]
  | cons p rest ih =>
    simp only [List.map_cons, List.nodup_cons] at hnodup
    have hp : p.1 ∉ d.map Prod.fst := hfresh p.1 (by simp)
    have step : pyUpdate d p.1 p.2 = d ++ [p] := by
      rw [pyUpdate_of_not_mem d p.1 p.2 hp]
    rw [pyUpdateAll, List.foldl_cons, step]
    have hfresh' : ∀ k ∈ rest.map Prod.fst, k ∉ (d ++ [p]).map Prod.fst := by
      intro k hk
      simp only [List.map_append, List.mem_append, List.map_cons, List.map_nil,
        List.mem_singleton]
      push_neg
      refine ⟨hfresh k (by simp [hk]), ?_⟩
      intro h
      exact hnodup.1 (h ▸ hk)
    have := ih (d ++ [p]) hfresh' hnodup.2
    rw [pyUpdateAll] at this
    rw [this, List.append_assoc]
    rfl

/-- Building a dict from pairs with pairwise-distinct keys reproduces the
pair list. -/
theorem pyUpdateAll_nil_of_nodup (l : List (K × V))
    (hnodup : (l.map Prod.fst).Nodup) : pyUpdateAll [] l = l := by
  simpa using pyUpdateAll_of_disjoint [] l (by simp) hnodup

/-- On a dict with pairwise-distinct keys, `get` of a member pair's key
returns that pair's value. -/
theorem pyGet_of_mem_nodup {d : List (K × V)} {p : K × V}
    (hnodup : (d.map Prod.fst).Nodup) (hmem : p ∈ d) :
    pyGet d p.1 = some p.2 := by
  induction d with
  | nil => simp at hmem
  | cons q rest ih =>
    simp only [List.map_cons, List.nodup_cons] at hnodup
    rcases List.mem_cons.mp hmem with h | h
    · subst h
      simp
    · have hq : ¬ q.1 = p.1 := by
        intro hqp
        exact hnodup.1 (hqp ▸ (List.mem_map_of_mem Prod.fst h))
      simp [hq, ih hnodup.2 h]

/-- `get` over an append searches the left dict first. -/
theorem pyGet_append (d₁ d₂ : List (K × V)) (k : K) :
    pyGet (d₁ ++ d₂) k = (pyGet d₁ k).orElse (fun _ => pyGet d₂ k) := by
  induction d₁ with
  | nil => simp
  | cons p rest ih =>
    by_cases hp : p.1 = k
    · simp [hp]
    · simp [hp, ih]

/-- The last write to a key wins: a dict built from a pair sequence reads
each key as the value of the last pair carrying it. -/
theorem pyGet_pyUpdateAll (d : List (K × V)) (l : List (K × V)) (k : K) :
    pyGet (pyUpdateAll d l) k =
      ((l.reverse.find? (fun p => p.1 = k)).map Prod.snd).orElse
        (fun _ => pyGet d k) := by
  induction l generalizing d with
  | nil => simp [pyUpdateAll]
  | cons p rest ih =>
    rw [pyUpdateAll, List.foldl_cons]
    have : pyGet (pyUpdateAll (pyUpdate d p.1 p.2) rest) k =
        ((rest.reverse.find? (fun p => p.1 = k)).map Prod.snd).orElse
          (fun _ => pyGet (pyUpdate d p.1 p.2) k) := ih (pyUpdate d p.1 p.2)
    rw [pyUpdateAll] at this
    rw [this, List.reverse_cons, List.find?_append]
    cases hrest : rest.reverse.find? (fun p => p.1 = k) with
    | some q => rfl
    | none =>
      simp only [Option.map_none', Option.none_orElse']
      rw [pyGet_pyUpdate]
      by_cases hk : k = p.1
      · rw [if_pos hk]
        rw [List.find?_cons_of_pos _ (by simpa using hk.symm)]
        simp
      · rw [if_neg hk]
        rw [List.find?_cons_of_neg _ (by simpa using fun h => hk h.symm)]
        simp

end PyDict

/-! ## URL parsing

`main.py` extracts a numeric source id from a self URL of the form
`.../scheme/<id>/` with the expression
`int(url[(url[:-1].rfind("/") + 1) : -1])`. -/

/-- `s.rfind("/")` on a list of characters: the index of the last `'/'`,
or `-1` when there is none. -/
def py_rfind_slash : List Char → Int
  | [] => -1
  | c :: rest =>
    let r := py_rfind_slash rest
    if r ≥ 0 then r + 1 else if c = '/' then 0 else -1

/-- Python `int()` on a nonempty all-digit character sequence. -/
def pyDigits : List Char → Option Nat
  | [] => Option.none
  | s =>
    if s.all Char.isDigit then
      Option.some (s.foldl (fun n c => n * 10 + (c.toNat - '0'.toNat)) 0)
    else
      Option.none

/-- Python `int(s)`: an optional sign followed by digits; `none` models the
`ValueError` raised on any other input. -/
def pyInt : List Char → Option Int
  | '-' :: rest => (pyDigits rest).map (fun n => -(n : Int))
  | '+' :: rest => (pyDigits rest).map (fun n => (n : Int))
  | s => (pyDigits s).map (fun n => (n : Int))

/-- `int(url[(url[:-1].rfind("/") + 1) : -1])`: parse the trailing numeric
path segment of a resource URL.  `url[a:-1]` is `url.dropLast.drop a`. -/
def parse_source_id (url : String) : Option Int :=
  let s := url.toList
  pyInt (s.dropLast.drop (py_rfind_slash s.dropLast + 1).toNat)

example : parse_source_id "https://swapi.dev/api/planets/1/" = Option.some 1 := by decide
example : parse_source_id "https://swapi.dev/api/people/42/" = Option.some 42 := by decide
example : parse_source_id "nonsense" = Option.none := by decide

/-! ## `Generator.generate_entity_urls` (PageURLPlanner)

The metadata request's `count` field is the `amount` argument; the division
is the source's `amount // 10` with a conditional `+ 1`. -/

/-- `Generator.generate_entity_urls`, with the `count` obtained from the
metadata request passed in as `amount`. -/
def generate_entity_urls (base_url : String) (amount : Nat) : List String :=
  let pages := if amount % 10 = 0 then amount / 10 else amount / 10 + 1
  (List.range pages).map (fun p => base_url ++ "?page=" ++ toString (p + 1))

/-- C5: for every nonnegative item count obtained from the metadata
request, `Generator.generate_entity_urls` produces exactly `ceil(count/10)`
URLs of the form `base_url?page=1` through `base_url?page=pages`,
1-indexed and in ascending page order; `count = 0` yields an empty URL
sequence, `count = 10` exactly one URL, and `count = 11` exactly two. -/
theorem c5_page_url_plan (base_url : String) (amount : Nat) :
    (generate_entity_urls base_url amount).length = (amount + 9) / 10 ∧
    (∀ i, i < (generate_entity_urls base_url amount).length →
      (generate_entity_urls base_url amount).getD i "" =
        base_url ++ "?page=" ++ toString (i + 1)) ∧
    generate_entity_urls base_url 0 = [] ∧
    (generate_entity_urls base_url 10).length = 1 ∧
    (generate_entity_urls base_url 11).length = 2 := by
  have hlen : ∀ a : Nat, (generate_entity_urls base_url a).length = (a + 9) / 10 := by
    intro a
    unfold generate_entity_urls
    simp only [List.length_map, List.length_range]
    by_cases h : a % 10 = 0
    · rw [if_pos h]
      conv_lhs => rw [← Nat.div_add_mod a 10, h]
      omega
    · rw [if_neg h]
      have h10 : a % 10 < 10 := Nat.mod_lt a (by norm_num)
      conv_rhs => rw [← Nat.div_add_mod a 10]
      omega
  refine ⟨hlen amount, ?_, ?_, ?_, ?_⟩
  · intro i hi
    unfold generate_entity_urls at hi ⊢
    simp only [List.length_map, List.length_range] at hi
    rw [List.getD_eq_getElem _ _ (by simpa using hi)]
    simp
  · rfl
  · exact hlen 10
  · exact hlen 11

/-- Witness for C5 at `count = 23`, `base = "B"`: three pages, second URL
is `B?page=2`. -/
theorem c5_page_url_plan_witness :
    (generate_entity_urls "B" 23).length = (23 + 9) / 10 ∧
    (generate_entity_urls "B" 23).getD 1 "" = "B" ++ "?page=" ++ toString (1 + 1) := by
  refine ⟨(c5_page_url_plan "B" 23).1, ?_⟩
  exact (c5_page_url_plan "B" 23).2.1 1 (by decide)

/-! ## Raw API records and canonical entities -/

/-- One page of an API response: `page.get("results", "")` iterates over
nothing when the key is absent. -/
structure Page (ρ : Type) where
  results : Option (List ρ)

/-- A raw planet record as read from a page's `results` list; every field
is read with `dict.get` and may be absent. -/
structure RawPlanet where
  name : Option String
  url : Option String
  rotation_period : Option String
  orbital_period : Option String
  diameter : Option String
  population : Option String
deriving DecidableEq

/-- A raw character record. -/
structure RawCharacter where
  name : Option String
  url : Option String
  homeworld : Option String
deriving DecidableEq

/-- The canonical planet record built by `Planets.generate_planet_info`. -/
structure PlanetEntity where
  name : String
  diameter : PyVal
  rotation_period : PyVal
  orbital_period : PyVal
  population : PyVal
deriving DecidableEq

/-- The canonical character record; `image_1920 = none` means the key is
absent from the Python dict, `some v` that it is present with value `v`. -/
structure CharEntity where
  name : String
  planet : PyVal
  image_1920 : Option PyVal := Option.none
deriving DecidableEq

/-- `value if (value != "unknown" and value != "0") else ""`, applied in
`generate_planet_info` to each of the four numeric fields. -/
def pyBlank (v : Option String) : PyVal :=
  if v ≠ some "unknown" ∧ v ≠ some "0" then pyOfOpt v else PyVal.str ""

/-- The canonical record `{name, diameter, rotation_period, orbital_period,
population}` built for one raw planet. -/
def planetEntityOf (p : RawPlanet) : PlanetEntity :=
  { name := p.name.getD ""
    diameter := pyBlank p.diameter
    rotation_period := pyBlank p.rotation_period
    orbital_period := pyBlank p.orbital_period
    population := pyBlank p.population }

/-- `int(planet_url[(planet_url[:-1].rfind("/") + 1) : -1])` on the value
of `record.get("url")`: a missing url raises `TypeError`, an unparsable
segment `ValueError`; both exceptions are `none`. -/
def record_source_id (url : Option String) : Option Int :=
  url.bind parse_source_id

/-- The inner loop of `Planets.generate_planet_info` over one page's
`results` list: skip `"unknown"`-named records, parse the source id from
the record's `url` (an exception is `none`), and update the accumulated
dict. -/
def planets_go : List RawPlanet → List (Int × PlanetEntity) →
    Option (List (Int × PlanetEntity))
  | [], d => Option.some d
  | p :: rest, d =>
    if p.name.getD "" = "unknown" then planets_go rest d
    else
      match record_source_id p.url with
      | Option.none => Option.none
      | Option.some pid => planets_go rest (pyUpdate d pid (planetEntityOf p))

/-- The outer page loop of `Planets.generate_planet_info`. -/
def planets_pages_go : List (Page RawPlanet) → List (Int × PlanetEntity) →
    Option (List (Int × PlanetEntity))
  | [], d => Option.some d
  | pg :: rest, d => (planets_go (pg.results.getD []) d).bind (planets_pages_go rest)

/-- `Planets.generate_planet_info`. -/
def generate_planet_info (json_list : List (Page RawPlanet)) :
    Option (List (Int × PlanetEntity)) :=
  planets_pages_go json_list []

/-! Spec-side rendering of §4.4 for the primary collection, written from the
spec's words to compare with `generate_planet_info`: flatten the pages,
drop records named exactly `"unknown"`, blank each of the four fields
exactly when it equals `"unknown"` or `"0"` (otherwise preserve it
verbatim), and combine the resulting `(source id, record)` sequence
last-write-wins. -/

/-- Modelled from the spec: blanking rule "suppress (blank) any of
`diameter, rotation_period, orbital_period, population` equal to
`"unknown"` or `"0"`". -/
def specSuppress (v : Option String) : PyVal :=
  if v = some "unknown" ∨ v = some "0" then PyVal.str "" else pyOfOpt v

/-- Modelled from the spec: the canonical `(source id, record)` sequence of
the primary collection, in record order; `none` when a record's self URL
cannot be parsed. -/
def planetNormSpecSeq : List RawPlanet → Option (List (Int × PlanetEntity))
  | [] => Option.some []
  | p :: rest =>
    if p.name.getD "" = "unknown" then planetNormSpecSeq rest
    else
      match record_source_id p.url, planetNormSpecSeq rest with
      | Option.some pid, Option.some tail =>
        Option.some ((pid,
          { name := p.name.getD ""
            diameter := specSuppress p.diameter
            rotation_period := specSuppress p.rotation_period
            orbital_period := specSuppress p.orbital_period
            population := specSuppress p.population }) :: tail)
      | _, _ => Option.none

/-- Modelled from the spec: normalize the primary collection by flattening
the pages and combining the canonical sequence last-write-wins. -/
def planetNormSpec (pages : List (Page RawPlanet)) :
    Option (List (Int × PlanetEntity)) :=
  (planetNormSpecSeq (pages.flatMap (fun pg => pg.results.getD []))).map
    (pyUpdateAll [])

theorem pyBlank_eq_specSuppress (v : Option String) : pyBlank v = specSuppress v := by
  unfold pyBlank specSuppress
  by_cases h1 : v = some "unknown"
  · simp [h1]
  · by_cases h2 : v = some "0" <;> simp [h1, h2]

theorem planetEntityOf_eq (p : RawPlanet) :
    planetEntityOf p =
      { name := p.name.getD ""
        diameter := specSuppress p.diameter
        rotation_period := specSuppress p.rotation_period
        orbital_period := specSuppress p.orbital_period
        population := specSuppress p.population } := by
  unfold planetEntityOf
  rw [pyBlank_eq_specSuppress, pyBlank_eq_specSuppress, pyBlank_eq_specSuppress,
    pyBlank_eq_specSuppress]

/-- The inner planet loop refines the spec sequence: it folds the canonical
sequence into the accumulated dict. -/
theorem planets_go_eq_spec (l : List RawPlanet) (d : List (Int × PlanetEntity)) :
    planets_go l d = (planetNormSpecSeq l).map (pyUpdateAll d) := by
  induction l generalizing d with
  | nil => rfl
  | cons p rest ih =>
    by_cases hname : p.name.getD "" = "unknown"
    · rw [planets_go, if_pos hname, planetNormSpecSeq, if_pos hname, ih]
    · rw [planets_go, if_neg hname, planetNormSpecSeq, if_neg hname]
      cases hid : record_source_id p.url with
      | none => cases planetNormSpecSeq rest with | none => rfl | some tail => rfl
      | some pid =>
        change planets_go rest (pyUpdate d pid (planetEntityOf p)) = _
        rw [ih (pyUpdate d pid (planetEntityOf p))]
        cases hrest : planetNormSpecSeq rest with
        | none => rfl
        | some tail =>
          rw [planetEntityOf_eq]
          rfl

/-- Processing pages one by one equals processing the flattened record
list. -/
theorem planets_pages_go_eq_flat (pages : List (Page RawPlanet))
    (d : List (Int × PlanetEntity)) :
    planets_pages_go pages d =
      planets_go (pages.flatMap (fun pg => pg.results.getD [])) d := by
  induction pages generalizing d with
  | nil => rfl
  | cons pg rest ih =>
    rw [planets_pages_go, List.flatMap_cons]
    have happ : ∀ (l₁ l₂ : List RawPlanet) (d : List (Int × PlanetEntity)),
        planets_go (l₁ ++ l₂) d = (planets_go l₁ d).bind (planets_go l₂) := by
      intro l₁
      induction l₁ with
      | nil => intro l₂ d; rfl
      | cons p r ihp =>
        intro l₂ d
        by_cases hname : p.name.getD "" = "unknown"
        · rw [List.cons_append, planets_go, if_pos hname, planets_go, if_pos hname,
            ihp]
        · rw [List.cons_append, planets_go, if_neg hname, planets_go, if_neg hname]
          cases record_source_id p.url with
          | none => rfl
          | some pid =>
            change planets_go (r ++ l₂) (pyUpdate d pid (planetEntityOf p)) =
              (planets_go r (pyUpdate d pid (planetEntityOf p))).bind (planets_go l₂)
            exact ihp l₂ (pyUpdate d pid (planetEntityOf p))
    rw [happ]
    cases planets_go (pg.results.getD []) d with
    | none => rfl
    | some d' => exact ih d'

theorem mem_pyUpdate {K V : Type} [DecidableEq K] {d : List (K × V)} {k : K}
    {v : V} {q : K × V} (h : q ∈ pyUpdate d k v) : q ∈ d ∨ q = (k, v) := by
  induction d with
  | nil =>
    simp only [pyUpdate, List.mem_singleton] at h
    exact Or.inr h
  | cons p rest ih =>
    by_cases hp : p.1 = k
    · rw [pyUpdate, if_pos hp] at h
      rcases List.mem_cons.mp h with h | h
      · exact Or.inr h
      · exact Or.inl (List.mem_cons_of_mem p h)
    · rw [pyUpdate, if_neg hp] at h
      rcases List.mem_cons.mp h with h | h
      · exact Or.inl (h ▸ List.mem_cons_self p rest)
      · rcases ih h with h | h
        · exact Or.inl (List.mem_cons_of_mem p h)
        · exact Or.inr h

theorem mem_pyUpdateAll {K V : Type} [DecidableEq K] {d : List (K × V)}
    {l : List (K × V)} {q : K × V} (h : q ∈ pyUpdateAll d l) : q ∈ d ∨ q ∈ l := by
  induction l generalizing d with
  | nil => exact Or.inl h
  | cons p rest ih =>
    rw [pyUpdateAll, List.foldl_cons] at h
    rcases ih h with h | h
    · rcases mem_pyUpdate h with h | h
      · exact Or.inl h
      · exact Or.inr (h ▸ List.mem_cons_self p rest)
    · exact Or.inr (List.mem_cons_of_mem p h)

/-- Every record in the spec-side canonical planet sequence keeps a name
different from the `"unknown"` sentinel. -/
theorem planetNormSpecSeq_name (l : List RawPlanet) (s : List (Int × PlanetEntity))
    (h : planetNormSpecSeq l = some s) : ∀ p ∈ s, p.2.name ≠ "unknown" := by
  induction l generalizing s with
  | nil =>
    rw [planetNormSpecSeq] at h
    cases h
    simp
  | cons p rest ih =>
    by_cases hname : p.name.getD "" = "unknown"
    · rw [planetNormSpecSeq, if_pos hname] at h
      exact ih s h
    · rw [planetNormSpecSeq, if_neg hname] at h
      cases hid : record_source_id p.url with
      | none =>
        rw [hid] at h
        cases hrest : planetNormSpecSeq rest with
        | none => rw [hrest] at h; exact absurd h (by simp)
        | some tail => rw [hrest] at h; exact absurd h (by simp)
      | some pid =>
        rw [hid] at h
        cases hrest : planetNormSpecSeq rest with
        | none => rw [hrest] at h; exact absurd h (by simp)
        | some tail =>
          rw [hrest] at h
          intro q hq
          rw [← Option.some.inj h] at hq
          rcases List.mem_cons.mp hq with hq | hq
          · rw [hq]
            exact hname
          · exact ih tail hrest q hq

/-- C8: `Planets.generate_planet_info` equals the spec-side normalizer —
flatten the page sequence, omit every record named exactly `"unknown"`,
blank each of `diameter`, `rotation_period`, `orbital_period`,
`population` exactly when its raw value equals `"unknown"` or `"0"` and
preserve it verbatim otherwise, and combine the record sequence
last-write-wins — and in particular no returned record is named
`"unknown"`. -/
theorem c8_planet_normalize :
    (∀ pages : List (Page RawPlanet), generate_planet_info pages = planetNormSpec pages) ∧
    (∀ (pages : List (Page RawPlanet)) (d : List (Int × PlanetEntity)),
      generate_planet_info pages = some d → ∀ p ∈ d, p.2.name ≠ "unknown") := by
  have heq : ∀ pages : List (Page RawPlanet),
      generate_planet_info pages = planetNormSpec pages := by
    intro pages
    unfold generate_planet_info planetNormSpec
    rw [planets_pages_go_eq_flat, planets_go_eq_spec]
  refine ⟨heq, ?_⟩
  intro pages d hd p hp
  rw [heq pages] at hd
  unfold planetNormSpec at hd
  cases hs : planetNormSpecSeq (pages.flatMap (fun pg => pg.results.getD [])) with
  | none => rw [hs] at hd; exact absurd hd (by simp)
  | some s =>
    rw [hs] at hd
    simp only [Option.map_some', Option.some.injEq] at hd
    have hps : p ∈ s := by
      rcases mem_pyUpdateAll (hd ▸ hp) with h | h
      · simp at h
      · exact h
    exact planetNormSpecSeq_name _ s hs p hps

/-- A concrete raw planet: `diameter="6760"` is non-sentinel,
`rotation_period="unknown"` and `population="0"` are sentinels. -/
def examplePlanet : RawPlanet :=
  { name := some "Alderaan"
    url := some "https://swapi.dev/api/planets/2/"
    rotation_period := some "unknown"
    orbital_period := some "364"
    diameter := some "6760"
    population := some "0" }

/-- A concrete raw planet named exactly `"unknown"`. -/
def exampleUnknownPlanet : RawPlanet :=
  { name := some "unknown"
    url := some "https://swapi.dev/api/planets/3/"
    rotation_period := some "12"
    orbital_period := some "34"
    diameter := some "56"
    population := some "78" }

def examplePlanetPages : List (Page RawPlanet) :=
  [{ results := some [examplePlanet, exampleUnknownPlanet] }]

/-- The canonical record expected for `examplePlanet`. -/
def examplePlanetEntity : PlanetEntity :=
  { name := "Alderaan"
    diameter := PyVal.str "6760"
    rotation_period := PyVal.str ""
    orbital_period := PyVal.str "364"
    population := PyVal.str "" }

/-- Witness for C8: on a concrete page the `"unknown"`-named record is
omitted, `diameter="6760"` survives verbatim, and the sentinel fields are
blanked; the retained record's name is not `"unknown"`. -/
theorem c8_planet_normalize_witness :
    generate_planet_info examplePlanetPages = some [(2, examplePlanetEntity)] ∧
    ((2 : Int), examplePlanetEntity).2.name ≠ "unknown" := by
  refine ⟨by decide, ?_⟩
  exact c8_planet_normalize.2 examplePlanetPages [(2, examplePlanetEntity)]
    (by decide) ((2 : Int), examplePlanetEntity) (by decide)

/-! ## `Characters.get_characters_info` (EntityNormalizer, dependent collection)

`planet_id` starts as the empty string and is overwritten by the parsed
homeworld id whenever a record carries a non-empty `homeworld` URL; a
record without one reuses the current `planet_id`. -/

/-- The inner record loop of `Characters.get_characters_info`, threading the
mutable `planet_id` (a string initially, an integer after the first parsed
homeworld) and the accumulated dict. -/
def characters_go : List RawCharacter → PyVal → List (Int × CharEntity) →
    Option (PyVal × List (Int × CharEntity))
  | [], planet_id, d => Option.some (planet_id, d)
  | c :: rest, planet_id, d =>
    if c.name.getD "" = "unknown" then characters_go rest planet_id d
    else
      match record_source_id c.url with
      | Option.none => Option.none
      | Option.some character_id =>
        match (if c.homeworld.getD "" ≠ "" then
                 (parse_source_id (c.homeworld.getD "")).map PyVal.int
               else Option.some planet_id) with
        | Option.none => Option.none
        | Option.some planet_id' =>
          characters_go rest planet_id'
            (pyUpdate d character_id
              { name := c.name.getD "", planet := planet_id' })

/-- The outer page loop of `Characters.get_characters_info`. -/
def characters_pages_go : List (Page RawCharacter) → PyVal →
    List (Int × CharEntity) → Option (PyVal × List (Int × CharEntity))
  | [], planet_id, d => Option.some (planet_id, d)
  | pg :: rest, planet_id, d =>
    (characters_go (pg.results.getD []) planet_id d).bind
      (fun s => characters_pages_go rest s.1 s.2)

/-- `Characters.get_characters_info`: the returned characters dict. -/
def get_characters_info (json_list : List (Page RawCharacter)) :
    Option (List (Int × CharEntity)) :=
  (characters_pages_go json_list (PyVal.str "") []).map Prod.snd

/-! Spec-side rendering of §4.4 for the dependent collection, written from
the spec's words to compare with `get_characters_info`: flatten the pages,
skip records named exactly `"unknown"`, parse each record's homeworld URL
into a source-side planet id when present, reuse the last successfully-seen
foreign id when absent, and combine the `(source id, record)` sequence
last-write-wins. -/

/-- Modelled from the spec: the canonical `(source id, record)` sequence of
the dependent collection in record order, with `last` the most recent
successfully-seen foreign id. -/
def charNormSpecSeq : List RawCharacter → PyVal → Option (List (Int × CharEntity))
  | [], _ => Option.some []
  | c :: rest, last =>
    if c.name.getD "" = "unknown" then charNormSpecSeq rest last
    else
      match record_source_id c.url with
      | Option.none => Option.none
      | Option.some cid =>
        match (if c.homeworld.getD "" ≠ "" then
                 (parse_source_id (c.homeworld.getD "")).map PyVal.int
               else Option.some last) with
        | Option.none => Option.none
        | Option.some pv =>
          (charNormSpecSeq rest pv).map
            (fun tail => (cid, { name := c.name.getD "", planet := pv }) :: tail)

/-- Modelled from the spec: normalize the dependent collection by
flattening the pages and combining the canonical sequence last-write-wins,
the last-seen foreign id starting as the empty string. -/
def charNormSpec (pages : List (Page RawCharacter)) :
    Option (List (Int × CharEntity)) :=
  (charNormSpecSeq (pages.flatMap (fun pg => pg.results.getD [])) (PyVal.str "")).map
    (pyUpdateAll [])

/-- The value of the threaded `planet_id` after a record list has been
processed (irrelevant on records that raise; used to state the refinement
of `characters_go`). -/
def pidAfter : List RawCharacter → PyVal → PyVal
  | [], last => last
  | c :: rest, last =>
    if c.name.getD "" = "unknown" then pidAfter rest last
    else
      match (if c.homeworld.getD "" ≠ "" then
               (parse_source_id (c.homeworld.getD "")).map PyVal.int
             else Option.some last) with
      | Option.some pv => pidAfter rest pv
      | Option.none => pidAfter rest last

/-- The inner character loop refines the spec sequence: it folds the
canonical sequence into the accumulated dict while threading the last-seen
foreign id. -/
theorem characters_go_eq_spec (l : List RawCharacter) (planet_id : PyVal)
    (d : List (Int × CharEntity)) :
    characters_go l planet_id d =
      (charNormSpecSeq l planet_id).map
        (fun seq => (pidAfter l planet_id, pyUpdateAll d seq)) := by
  induction l generalizing planet_id d with
  | nil => rfl
  | cons c rest ih =>
    by_cases hname : c.name.getD "" = "unknown"
    · rw [characters_go, if_pos hname, charNormSpecSeq, if_pos hname, ih,
        pidAfter, if_pos hname]
    · rw [characters_go, if_neg hname, charNormSpecSeq, if_neg hname,
        pidAfter, if_neg hname]
      cases hid : record_source_id c.url with
      | none => rfl
      | some cid =>
        cases hpv : (if c.homeworld.getD "" ≠ "" then
            (parse_source_id (c.homeworld.getD "")).map PyVal.int
          else Option.some planet_id) with
        | none => rfl
        | some pv =>
          change characters_go rest pv
              (pyUpdate d cid { name := c.name.getD "", planet := pv }) =
            Option.map (fun seq => (pidAfter rest pv, pyUpdateAll d seq))
              ((charNormSpecSeq rest pv).map
                (fun tail =>
                  ((cid, { name := c.name.getD "", planet := pv }) : Int × CharEntity)
                    :: tail))
          rw [ih pv (pyUpdate d cid { name := c.name.getD "", planet := pv })]
          cases charNormSpecSeq rest pv with
          | none => rfl
          | some tail => rfl

/-- Processing character pages one by one equals processing the flattened
record list. -/
theorem characters_pages_go_eq_flat (pages : List (Page RawCharacter))
    (planet_id : PyVal) (d : List (Int × CharEntity)) :
    characters_pages_go pages planet_id d =
      characters_go (pages.flatMap (fun pg => pg.results.getD [])) planet_id d := by
  induction pages generalizing planet_id d with
  | nil => rfl
  | cons pg rest ih =>
    rw [characters_pages_go, List.flatMap_cons]
    have happ : ∀ (l₁ l₂ : List RawCharacter) (planet_id : PyVal)
        (d : List (Int × CharEntity)),
        characters_go (l₁ ++ l₂) planet_id d =
          (characters_go l₁ planet_id d).bind
            (fun s => characters_go l₂ s.1 s.2) := by
      intro l₁
      induction l₁ with
      | nil => intro l₂ planet_id d; rfl
      | cons c r ihc =>
        intro l₂ planet_id d
        by_cases hname : c.name.getD "" = "unknown"
        · rw [List.cons_append, characters_go, if_pos hname, characters_go,
            if_pos hname, ihc]
        · rw [List.cons_append, characters_go, if_neg hname, characters_go,
            if_neg hname]
          cases record_source_id c.url with
          | none => rfl
          | some cid =>
            cases hpv : (if c.homeworld.getD "" ≠ "" then
                (parse_source_id (c.homeworld.getD "")).map PyVal.int
              else Option.some planet_id) with
            | none => rfl
            | some pv =>
              change characters_go (r ++ l₂) pv
                  (pyUpdate d cid { name := c.name.getD "", planet := pv }) =
                (characters_go r pv
                  (pyUpdate d cid { name := c.name.getD "", planet := pv })).bind
                  (fun s => characters_go l₂ s.1 s.2)
              exact ihc l₂ pv
                (pyUpdate d cid { name := c.name.getD "", planet := pv })
    rw [happ]
    cases characters_go (pg.results.getD []) planet_id d with
    | none => rfl
    | some s => exact ih s.1 s.2

/-- C4: `Characters.get_characters_info` equals the spec-side normalizer —
flatten the pages, skip records named exactly `"unknown"`, give each record
the planet id parsed from the trailing numeric path segment of its
homeworld URL when one is present and the last successfully-seen foreign
id otherwise, and combine the `(source id, record)` sequence
last-write-wins — and last-write-wins means a later record with a
duplicate source id overwrites the earlier one: a dict built from a pair
sequence reads each key as the value of the last pair carrying it. -/
theorem c4_character_normalize :
    (∀ pages : List (Page RawCharacter),
      get_characters_info pages = charNormSpec pages) ∧
    (∀ (seq : List (Int × CharEntity)) (k : Int),
      pyGet (pyUpdateAll [] seq) k =
        (seq.reverse.find? (fun p => p.1 = k)).map Prod.snd) := by
  constructor
  · intro pages
    unfold get_characters_info charNormSpec
    rw [characters_pages_go_eq_flat, characters_go_eq_spec]
    cases charNormSpecSeq (pages.flatMap (fun pg => pg.results.getD []))
      (PyVal.str "") with
    | none => rfl
    | some seq => rfl
  · intro seq k
    rw [pyGet_pyUpdateAll]
    rw [pyGet_nil, Option.orElse_none']

/-! ## `Characters.upgrage_characters_photo` and `upgrade_characters_info`
(CrossReferenceResolver) -/

/-- The body of the loop of `upgrage_characters_photo` for one entry:
`if image_dict.get(characters_id) != "": values.update({"image_1920":
image_dict.get(characters_id)})`.  A missing entry makes `dict.get` return
`None`, which also differs from `""`, so `image_1920` is then attached
with value `None`. -/
def mergeOne (image_dict : List (Int × String)) (p : Int × CharEntity) : CharEntity :=
  if pyGet image_dict p.1 ≠ some "" then
    { p.2 with image_1920 := some (pyOfOpt (pyGet image_dict p.1)) }
  else p.2

/-- `Characters.upgrage_characters_photo`. -/
def upgrage_characters_photo (characters_dict : List (Int × CharEntity))
    (image_dict : List (Int × String)) : List (Int × CharEntity) :=
  characters_dict.foldl
    (fun changed_characters_dict p =>
      pyUpdate changed_characters_dict p.1 (mergeOne image_dict p))
    []

/-- `ids_planets_dict.get(planet_id, "")`: the planets id map has integer
keys, so only an integer `planet` value can match; any other current value
(such as the initial empty string) falls back to `""`. -/
def pyGetPlanet (ids_planets_dict : List (Int × Int)) : PyVal → PyVal
  | PyVal.int n =>
    match pyGet ids_planets_dict n with
    | Option.some v => PyVal.int v
    | Option.none => PyVal.str ""
  | _ => PyVal.str ""

/-- The body of the loop of `upgrade_characters_info` for one entry:
`value.update({"planet": ids_planets_dict.get(planet_id, "")})`. -/
def remapOne (ids_planets_dict : List (Int × Int)) (e : CharEntity) : CharEntity :=
  { e with planet := pyGetPlanet ids_planets_dict e.planet }

/-- `Characters.upgrade_characters_info`. -/
def upgrade_characters_info (characters_dict : List (Int × CharEntity))
    (ids_planets_dict : List (Int × Int)) : List (Int × CharEntity) :=
  characters_dict.foldl
    (fun new_characters_dict p =>
      pyUpdate new_characters_dict p.1 (remapOne ids_planets_dict p.2))
    []

/-- A per-entry rebuild loop is the dict built from the transformed pair
list. -/
theorem foldl_pyUpdate_eq_updateAll {K V : Type} [DecidableEq K]
    (f : (K × V) → V) (cd : List (K × V)) (init : List (K × V)) :
    cd.foldl (fun d p => pyUpdate d p.1 (f p)) init =
      pyUpdateAll init (cd.map (fun p => (p.1, f p))) := by
  rw [pyUpdateAll, List.foldl_map]

/-- Rebuilding a dict with pairwise-distinct keys entry by entry maps the
transform over it. -/
theorem foldl_pyUpdate_eq_map {K V : Type} [DecidableEq K]
    (f : (K × V) → V) (cd : List (K × V))
    (hnodup : (cd.map Prod.fst).Nodup) :
    cd.foldl (fun d p => pyUpdate d p.1 (f p)) [] =
      cd.map (fun p => (p.1, f p)) := by
  rw [foldl_pyUpdate_eq_updateAll]
  apply pyUpdateAll_nil_of_nodup
  have : (cd.map (fun p => (p.1, f p))).map Prod.fst = cd.map Prod.fst := by
    rw [List.map_map]
    rfl
  rw [this]
  exact hnodup

/-- C1 counterexample: the claim says an entity whose source id has no
entry in the image map is returned unmodified with no `image_1920` field
added, but `upgrage_characters_photo` attaches `image_1920 = None` to it,
because `image_dict.get(id)` is `None` and `None != ""` holds. -/
theorem c1_counterexample :
    upgrage_characters_photo
        [(1, { name := "Luke", planet := PyVal.str "" })] [] ≠
      [(1, { name := "Luke", planet := PyVal.str "" })] ∧
    upgrage_characters_photo
        [(1, { name := "Luke", planet := PyVal.str "" })] [] =
      [(1, { name := "Luke", planet := PyVal.str "",
             image_1920 := some PyVal.none })] := by
  constructor
  · decide
  · decide

/-- C1 (amended): `upgrage_characters_photo` attaches `image_1920` to
exactly those entities whose image lookup differs from the empty string:
a non-empty mapped value is attached as that string, a missing entry is
attached as the Python `None`, and only an entity whose id maps exactly to
the empty string is returned unmodified. -/
theorem c1_merge_images_amended (cd : List (Int × CharEntity))
    (im : List (Int × String)) (hnodup : (cd.map Prod.fst).Nodup) :
    upgrage_characters_photo cd im = cd.map (fun p => (p.1, mergeOne im p)) ∧
    (∀ p ∈ cd, ∀ s : String, pyGet im p.1 = some s → s ≠ "" →
      mergeOne im p = { p.2 with image_1920 := some (PyVal.str s) }) ∧
    (∀ p ∈ cd, pyGet im p.1 = some "" → mergeOne im p = p.2) ∧
    (∀ p ∈ cd, pyGet im p.1 = Option.none →
      mergeOne im p = { p.2 with image_1920 := some PyVal.none }) := by
  refine ⟨foldl_pyUpdate_eq_map (mergeOne im) cd hnodup, ?_, ?_, ?_⟩
  · intro p _ s hs hne
    unfold mergeOne
    rw [hs]
    rw [if_pos (by simpa using hne)]
    rfl
  · intro p _ hs
    unfold mergeOne
    rw [hs]
    simp
  · intro p _ hs
    unfold mergeOne
    rw [hs]
    rw [if_pos (by simp)]
    rfl

/-- Witness for C1 (amended) on a three-entity dict whose image map holds
a non-empty value for id 1, the empty string for id 2, and nothing for
id 3. -/
theorem c1_merge_images_amended_witness :
    upgrage_characters_photo
        [(1, { name := "a", planet := PyVal.int 5 }),
         (2, { name := "b", planet := PyVal.int 6 }),
         (3, { name := "c", planet := PyVal.int 7 })]
        [(1, "IMG"), (2, "")] =
      ([(1, { name := "a", planet := PyVal.int 5 }),
        (2, { name := "b", planet := PyVal.int 6 }),
        (3, { name := "c", planet := PyVal.int 7 })].map
          (fun p => (p.1, mergeOne [(1, "IMG"), (2, "")] p))) :=
  (c1_merge_images_amended
    [(1, { name := "a", planet := PyVal.int 5 }),
     (2, { name := "b", planet := PyVal.int 6 }),
     (3, { name := "c", planet := PyVal.int 7 })]
    [(1, "IMG"), (2, "")] (by decide)).1

theorem mergeOne_idem (im : List (Int × String)) (k : Int) (e : CharEntity) :
    mergeOne im (k, mergeOne im (k, e)) = mergeOne im (k, e) := by
  unfold mergeOne
  by_cases h : pyGet im k ≠ some ""
  · simp only []
    rw [if_pos h, if_pos h]
  · simp only []
    rw [if_neg h, if_neg h]

/-- C3 counterexample: `upgrade_characters_info` is not idempotent — an
entity with `planet = 5` under the map `{5: 42}` is remapped to `42` once,
but a second application looks `42` up in the source-keyed map and
degrades it to the empty string. -/
theorem c3_counterexample :
    upgrade_characters_info (upgrade_characters_info
        [(1, { name := "a", planet := PyVal.int 5 })] [(5, 42)]) [(5, 42)] ≠
      upgrade_characters_info
        [(1, { name := "a", planet := PyVal.int 5 })] [(5, 42)] := by
  decide

/-- C3 (amended): `merge_images` (`upgrage_characters_photo`) is idempotent
on every entity mapping, but `remap_foreign_key`
(`upgrade_characters_info`) is not idempotent in general: a second
application re-resolves already-remapped target ids against the
source-keyed map. -/
theorem c3_idempotence_amended (cd : List (Int × CharEntity))
    (im : List (Int × String)) (hnodup : (cd.map Prod.fst).Nodup) :
    upgrage_characters_photo (upgrage_characters_photo cd im) im =
      upgrage_characters_photo cd im ∧
    ¬ (∀ (cd' : List (Int × CharEntity)) (m : List (Int × Int)),
        upgrade_characters_info (upgrade_characters_info cd' m) m =
          upgrade_characters_info cd' m) := by
  constructor
  · have h1 : upgrage_characters_photo cd im =
        cd.map (fun p => (p.1, mergeOne im p)) :=
      foldl_pyUpdate_eq_map (mergeOne im) cd hnodup
    have hkeys : ((cd.map (fun p => (p.1, mergeOne im p))).map Prod.fst).Nodup := by
      rw [List.map_map]
      exact hnodup
    have h2 : upgrage_characters_photo (cd.map (fun p => (p.1, mergeOne im p))) im =
        (cd.map (fun p => (p.1, mergeOne im p))).map
          (fun p => (p.1, mergeOne im p)) :=
      foldl_pyUpdate_eq_map (mergeOne im) _ hkeys
    rw [h1, h2, List.map_map]
    apply List.map_congr_left
    intro p _
    show (p.1, mergeOne im (p.1, mergeOne im p)) = (p.1, mergeOne im p)
    have : mergeOne im (p.1, mergeOne im p) = mergeOne im p := by
      have := mergeOne_idem im p.1 p.2
      simpa using this
    rw [this]
  · intro hall
    exact absurd (hall [(1, { name := "a", planet := PyVal.int 5 })] [(5, 42)])
      (by decide)

/-- Witness for C3 (amended): idempotence of the image merge at a concrete
two-entity dict. -/
theorem c3_idempotence_amended_witness :
    upgrage_characters_photo (upgrage_characters_photo
        [(1, { name := "a", planet := PyVal.int 5 }),
         (2, { name := "b", planet := PyVal.int 6 })] [(1, "IMG")]) [(1, "IMG")] =
      upgrage_characters_photo
        [(1, { name := "a", planet := PyVal.int 5 }),
         (2, { name := "b", planet := PyVal.int 6 })] [(1, "IMG")] :=
  (c3_idempotence_amended
    [(1, { name := "a", planet := PyVal.int 5 }),
     (2, { name := "b", planet := PyVal.int 6 })] [(1, "IMG")] (by decide)).1

/-- C9: `Characters.upgrade_characters_info` replaces each entity's
`planet` field — a source-side planet id — by
`ids_planets_dict.get(planet, "")`: an integer id found in the map becomes
the mapped target id, an id absent from the map (and any non-integer
current value) degrades to the empty string, and nothing else of the
entity or of the key set changes. -/
theorem c9_remap_foreign_key (cd : List (Int × CharEntity))
    (m : List (Int × Int)) (hnodup : (cd.map Prod.fst).Nodup) :
    upgrade_characters_info cd m = cd.map (fun p => (p.1, remapOne m p.2)) ∧
    (∀ p ∈ cd, pyGet (upgrade_characters_info cd m) p.1 =
      some { p.2 with planet := pyGetPlanet m p.2.planet }) ∧
    (∀ n : Int, pyGetPlanet m (PyVal.int n) =
      (pyGet m n).elim (PyVal.str "") PyVal.int) ∧
    (∀ s : String, pyGetPlanet m (PyVal.str s) = PyVal.str "") := by
  have hmap : upgrade_characters_info cd m =
      cd.map (fun p => (p.1, remapOne m p.2)) :=
    foldl_pyUpdate_eq_map (fun p => remapOne m p.2) cd hnodup
  refine ⟨hmap, ?_, ?_, ?_⟩
  · intro p hp
    rw [hmap]
    have hkeys : ((cd.map (fun p => (p.1, remapOne m p.2))).map Prod.fst).Nodup := by
      rw [List.map_map]
      exact hnodup
    have hmem : ((p.1, remapOne m p.2) : Int × CharEntity) ∈
        cd.map (fun p => (p.1, remapOne m p.2)) :=
      List.mem_map_of_mem _ hp
    exact pyGet_of_mem_nodup hkeys hmem
  · intro n
    cases h : pyGet m n with
    | none => simp [pyGetPlanet, h]
    | some v => simp [pyGetPlanet, h]
  · intro s
    rfl

/-- Witness for C9: `planet = 5` under `{5: 42}` becomes `42`; under the
empty map it becomes the empty string. -/
theorem c9_remap_foreign_key_witness :
    pyGet (upgrade_characters_info
        [(1, { name := "a", planet := PyVal.int 5 })] [(5, 42)]) 1 =
      some { name := "a", planet := PyVal.int 42 } ∧
    pyGet (upgrade_characters_info
        [(1, { name := "a", planet := PyVal.int 5 })] []) 1 =
      some { name := "a", planet := PyVal.str "" } := by
  constructor
  · have h := (c9_remap_foreign_key
      [(1, { name := "a", planet := PyVal.int 5 })] [(5, 42)] (by decide)).2.1
      (1, { name := "a", planet := PyVal.int 5 }) (by decide)
    simpa using h
  · have h := (c9_remap_foreign_key
      [(1, { name := "a", planet := PyVal.int 5 })] [] (by decide)).2.1
      (1, { name := "a", planet := PyVal.int 5 }) (by decide)
    simpa using h

/-! ## `CharactersImage` (ImageClassifier)

Byte payloads are lists of byte values; `PIL.Image.open` is an external
decoder whose success or failure on a payload is the oracle
`decodesAsImage`; `base64.b64encode(...).decode("ascii")` is standard
base64 text. -/

/-- The base64 alphabet. -/
def b64char (n : Nat) : Char :=
  "ABCDEFGHIJKLMNOPQRSTUVWXYZabcdefghijklmnopqrstuvwxyz0123456789+/".toList.getD
    n 'A'

/-- RFC 4648 base64: three bytes per four output characters, `'='`-padded. -/
def b64groups : List Nat → List Char
  | [] => []
  | [a] => [b64char (a / 4), b64char (a % 4 * 16), '=', '=']
  | [a, b] =>
    [b64char (a / 4), b64char (a % 4 * 16 + b / 16), b64char (b % 16 * 4), '=']
  | a :: b :: c :: rest =>
    b64char (a / 4) :: b64char (a % 4 * 16 + b / 16) ::
      b64char (b % 16 * 4 + c / 64) :: b64char (c % 64) :: b64groups rest

/-- `base64.b64encode(payload).decode("ascii")`. -/
def b64encode (bs : List Nat) : String := String.mk (b64groups bs)

/-- `CharactersImage.determine_response_type`: try to decode the payload as
a raster image; any exception is caught by the bare `except` and the
payload is assumed to be HTML. -/
def determine_response_type (decodesAsImage : List Nat → Bool)
    (response : List Nat) : String :=
  if decodesAsImage response then "image" else "html"

/-- The diagnostic logged for a payload that is not a valid image. -/
def photoErrMsg (character_id : Nat) : String :=
  "Image error. The character " ++ toString character_id ++
    " will be uploaded without image."

/-- The loop of `CharactersImage.upgrade_photo`: `for i in
range(len(image_info))` with `character_id = i + 1`, accumulating the
image dict and the log lines. -/
def upgrade_photo_go (decodesAsImage : List Nat → Bool) :
    List (List Nat) → Nat → List (Nat × String) × List String →
      List (Nat × String) × List String
  | [], _, acc => acc
  | r :: rest, i, acc =>
    if determine_response_type decodesAsImage r = "image" then
      upgrade_photo_go decodesAsImage rest (i + 1)
        (pyUpdate acc.1 (i + 1) (b64encode r), acc.2)
    else
      upgrade_photo_go decodesAsImage rest (i + 1)
        (pyUpdate acc.1 (i + 1) "", acc.2 ++ [photoErrMsg (i + 1)])

/-- `CharactersImage.upgrade_photo`, returning the image dict together
with the diagnostics written to the run log. -/
def upgrade_photo (decodesAsImage : List Nat → Bool)
    (image_info : List (List Nat)) : List (Nat × String) × List String :=
  upgrade_photo_go decodesAsImage image_info 0 ([], [])

/-- The `(character id, value)` pairs produced for the payload list
starting at loop index `i`. -/
def photoPairs (decodesAsImage : List Nat → Bool) :
    List (List Nat) → Nat → List (Nat × String)
  | [], _ => []
  | r :: rest, i =>
    (i + 1, if decodesAsImage r then b64encode r else "") ::
      photoPairs decodesAsImage rest (i + 1)

/-- The diagnostics produced for the payload list starting at loop
index `i`. -/
def photoLogs (decodesAsImage : List Nat → Bool) :
    List (List Nat) → Nat → List String
  | [], _ => []
  | r :: rest, i =>
    (if decodesAsImage r then [] else [photoErrMsg (i + 1)]) ++
      photoLogs decodesAsImage rest (i + 1)

/-- The classifier loop accumulates exactly the pair and log sequences. -/
theorem upgrade_photo_go_eq (decodesAsImage : List Nat → Bool)
    (l : List (List Nat)) (i : Nat) (d : List (Nat × String)) (ls : List String) :
    upgrade_photo_go decodesAsImage l i (d, ls) =
      (pyUpdateAll d (photoPairs decodesAsImage l i),
        ls ++ photoLogs decodesAsImage l i) := by
  induction l generalizing i d ls with
  | nil => simp [upgrade_photo_go, photoPairs, photoLogs, pyUpdateAll]
  | cons r rest ih =>
    by_cases hdec : decodesAsImage r
    · rw [upgrade_photo_go, if_pos (by simp [determine_response_type, hdec])]
      rw [ih]
      simp [photoPairs, photoLogs, hdec, pyUpdateAll]
    · rw [upgrade_photo_go,
        if_neg (by simp [determine_response_type, hdec])]
      rw [ih]
      simp [photoPairs, photoLogs, hdec, pyUpdateAll]

/-- The keys of the pair sequence starting at index `i` are
`i+1, …, i+n`. -/
theorem photoPairs_keys (decodesAsImage : List Nat → Bool)
    (l : List (List Nat)) (i : Nat) :
    (photoPairs decodesAsImage l i).map Prod.fst = List.range' (i + 1) l.length := by
  induction l generalizing i with
  | nil => simp [photoPairs]
  | cons r rest ih =>
    rw [photoPairs, List.length_cons, List.range'_succ, List.map_cons, ih]

/-- Pointwise read of the pair sequence: index `j` of the payload list
processed from loop index `i` is keyed `i + j + 1`. -/
theorem photoPairs_get (decodesAsImage : List Nat → Bool)
    (l : List (List Nat)) (i j : Nat) (hj : j < l.length) :
    pyGet (photoPairs decodesAsImage l i) (i + j + 1) =
      some (if decodesAsImage (l.getD j []) then b64encode (l.getD j [])
            else "") := by
  induction l generalizing i j with
  | nil => simp at hj
  | cons r rest ih =>
    cases j with
    | zero =>
      rw [photoPairs]
      rw [pyGet_cons]
      simp
    | succ j =>
      rw [photoPairs, pyGet_cons]
      rw [if_neg (by omega)]
      have harith : i + (j + 1) + 1 = (i + 1) + j + 1 := by omega
      rw [harith]
      have := ih (i + 1) j (by simpa using Nat.lt_of_succ_lt_succ (by simpa using hj))
      rw [this]
      simp

/-- The log sequence holds exactly one diagnostic per failing payload, in
order, naming character id `i + j + 1` for failing index `j`. -/
theorem photoLogs_eq (decodesAsImage : List Nat → Bool)
    (l : List (List Nat)) (i : Nat) :
    photoLogs decodesAsImage l i =
      ((List.range l.length).filter
        (fun j => ! decodesAsImage (l.getD j []))).map
        (fun j => photoErrMsg (i + j + 1)) := by
  induction l generalizing i with
  | nil => simp [photoLogs]
  | cons r rest ih =>
    rw [photoLogs, List.length_cons, List.range_succ_eq_map]
    rw [List.filter_cons]
    have hmapfilter :
        ((List.range rest.length).map Nat.succ).filter
            (fun j => ! decodesAsImage ((r :: rest).getD j [])) =
          ((List.range rest.length).filter
            (fun j => ! decodesAsImage (rest.getD j []))).map Nat.succ := by
      rw [List.filter_map]
      rfl
    by_cases hdec : decodesAsImage r
    · rw [if_pos hdec, if_neg (by simp [hdec])]
      rw [hmapfilter, ih (i + 1), List.map_map, List.nil_append]
      apply List.map_congr_left
      intro j _
      show photoErrMsg ((i + 1) + j + 1) = photoErrMsg (i + (j + 1) + 1)
      congr 1
      omega
    · rw [if_neg hdec, if_pos (by simp [hdec])]
      rw [hmapfilter, ih (i + 1), List.map_cons, List.map_map,
        List.singleton_append]
      have hhead : photoErrMsg (i + 0 + 1) = photoErrMsg (i + 1) := by norm_num
      rw [hhead]
      congr 1
      apply List.map_congr_left
      intro j _
      show photoErrMsg ((i + 1) + j + 1) = photoErrMsg (i + (j + 1) + 1)
      congr 1
      omega

/-- Base64 of a nonempty byte list is a nonempty string. -/
theorem b64encode_ne_empty (bs : List Nat) (h : bs ≠ []) : b64encode bs ≠ "" := by
  match bs with
  | [] => exact absurd rfl h
  | [a] =>
    intro hc
    exact absurd (congrArg String.data hc) (by simp [b64encode, b64groups])
  | [a, b] =>
    intro hc
    exact absurd (congrArg String.data hc) (by simp [b64encode, b64groups])
  | a :: b :: c :: rest =>
    intro hc
    exact absurd (congrArg String.data hc) (by simp [b64encode, b64groups])

/-- C10: `determine_response_type` is total — for every payload it returns
exactly `"image"` or `"html"` (the bare `except` turns any decoder
exception into the `"html"` outcome) — so `upgrade_photo` assigns a value
to every input index, keying its result by exactly the contiguous ids
`1..n` for an input of length `n`. -/
theorem c10_classifier_total (decodesAsImage : List Nat → Bool) :
    (∀ response : List Nat,
      determine_response_type decodesAsImage response = "image" ∨
      determine_response_type decodesAsImage response = "html") ∧
    (∀ image_info : List (List Nat),
      (upgrade_photo decodesAsImage image_info).1.map Prod.fst =
        (List.range image_info.length).map (fun i => i + 1)) := by
  constructor
  · intro response
    unfold determine_response_type
    by_cases h : decodesAsImage response
    · exact Or.inl (if_pos h)
    · exact Or.inr (if_neg h)
  · intro image_info
    unfold upgrade_photo
    rw [upgrade_photo_go_eq]
    show (pyUpdateAll [] (photoPairs decodesAsImage image_info 0)).map Prod.fst = _
    rw [pyUpdateAll_nil_of_nodup _
      (by rw [photoPairs_keys]; exact List.nodup_range' ..)]
    rw [photoPairs_keys, List.range'_eq_map_range]
    apply List.map_congr_left
    intro j _
    omega

/-- C7: `upgrade_photo` maps 0-based input index `i` to key `i + 1`; a
payload that decodes as a raster image is mapped to the base64 encoding of
its raw bytes, a payload that fails image decoding is mapped to the empty
string with exactly one diagnostic naming the affected character id
emitted per failing payload, and base64 of a non-empty payload is
non-empty. -/
theorem c7_image_classify (decodesAsImage : List Nat → Bool)
    (image_info : List (List Nat)) :
    (∀ i, i < image_info.length →
      pyGet (upgrade_photo decodesAsImage image_info).1 (i + 1) =
        some (if decodesAsImage (image_info.getD i []) then
          b64encode (image_info.getD i []) else "")) ∧
    (upgrade_photo decodesAsImage image_info).2 =
      ((List.range image_info.length).filter
        (fun j => ! decodesAsImage (image_info.getD j []))).map
        (fun j => photoErrMsg (j + 1)) ∧
    (∀ bs : List Nat, bs ≠ [] → b64encode bs ≠ "") := by
  refine ⟨?_, ?_, b64encode_ne_empty⟩
  · intro i hi
    unfold upgrade_photo
    rw [upgrade_photo_go_eq]
    show pyGet (pyUpdateAll [] (photoPairs decodesAsImage image_info 0)) (i + 1) = _
    rw [pyUpdateAll_nil_of_nodup _
      (by rw [photoPairs_keys]; exact List.nodup_range' ..)]
    have := photoPairs_get decodesAsImage image_info 0 i hi
    simpa using this
  · unfold upgrade_photo
    rw [upgrade_photo_go_eq]
    show [] ++ photoLogs decodesAsImage image_info 0 = _
    rw [List.nil_append, photoLogs_eq]
    apply List.map_congr_left
    intro j _
    show photoErrMsg (0 + j + 1) = photoErrMsg (j + 1)
    congr 1
    omega

/-- A concrete decode oracle (payloads of length three decode) and payload
list for the C7 witness. -/
def exampleDecode : List Nat → Bool := fun bs => bs.length == 3

def examplePayloads : List (List Nat) := [[10, 20, 30], [7]]

/-- Witness for C7: index 1 of the concrete payload list fails decoding,
is keyed 2 with the empty string, and yields exactly one diagnostic. -/
theorem c7_image_classify_witness :
    (1 < examplePayloads.length) ∧
    pyGet (upgrade_photo exampleDecode examplePayloads).1 (1 + 1) =
      some (if exampleDecode (examplePayloads.getD 1 []) then
        b64encode (examplePayloads.getD 1 []) else "") ∧
    (upgrade_photo exampleDecode examplePayloads).2 =
      ((List.range examplePayloads.length).filter
        (fun j => ! exampleDecode (examplePayloads.getD j []))).map
        (fun j => photoErrMsg (j + 1)) :=
  ⟨by decide, (c7_image_classify exampleDecode examplePayloads).1 1 (by decide),
   (c7_image_classify exampleDecode examplePayloads).2.1⟩

/-! ## `Odoo.check_entity_in_odoo` and `upload_entity_info_into_oddo`
(ReconciliationClient)

The store is external: the `search_read` result and the ids returned by
the `create` RPC are parameters.  Entity values are generic in `α` with a
`getName` accessor (`entity.get("name")`, always present on the records
built by the normalizers). -/

/-- `entity_in_odoo_names.index(nm)` wrapped in `try/except ValueError`:
the first index of `nm`, or `none` for the exception. -/
def pyIndex (nm : String) : List String → Option Nat
  | [] => Option.none
  | s :: rest => if s = nm then Option.some 0 else (pyIndex nm rest).map (· + 1)

/-- One iteration of the candidate loop of `check_entity_in_odoo`: on a
name match, append the candidate's source id to the deletion list and
record the matched Odoo id; on `ValueError`, `continue`. -/
def check_step {α : Type} (getName : α → String) (names : List String)
    (keys : List Int) (acc : List Int × List (Int × Int)) (p : Int × α) :
    List Int × List (Int × Int) :=
  match pyIndex (getName p.2) names with
  | Option.some index =>
    (acc.1 ++ [p.1], pyUpdate acc.2 p.1 (keys.getD index 0))
  | Option.none => acc

/-- `Odoo.check_entity_in_odoo`, with `result` the `{id, name}` rows
returned by the store's `search_read`. -/
def check_entity_in_odoo {α : Type} (result : List (Int × String))
    (entity_dict : List (Int × α)) (getName : α → String) :
    List (Int × α) × List (Int × Int) :=
  let new_dict := pyUpdateAll [] result
  let dl := entity_dict.foldl
    (check_step getName (new_dict.map Prod.snd) (new_dict.map Prod.fst)) ([], [])
  (dl.1.foldl (fun d k => pyDel d k) entity_dict, dl.2)

/-- `Odoo.upload_entity_info_into_oddo`, with `entity_odoo_id` the ids
returned by the store's `create` call; `none` models the `KeyError`
raised while logging when a submitted source id received no target id. -/
def upload_entity_info_into_oddo {α : Type} (entity_dict : List (Int × α))
    (ids_entity_dict : List (Int × Int)) (entity_odoo_id : List Int) :
    Option (List (Int × Int)) :=
  let new_ids := pyUpdateAll ids_entity_dict
    (pyUpdateAll [] ((entity_dict.map Prod.fst).zip entity_odoo_id))
  if entity_dict.all (fun p => (pyGet new_ids p.1).isSome) then
    Option.some new_ids
  else
    Option.none

theorem check_step_none {α : Type} (getName : α → String) (names : List String)
    (keys : List Int) (acc : List Int × List (Int × Int)) (p : Int × α)
    (h : pyIndex (getName p.2) names = Option.none) :
    check_step getName names keys acc p = acc := by
  unfold check_step
  rw [h]

theorem check_step_some {α : Type} (getName : α → String) (names : List String)
    (keys : List Int) (acc : List Int × List (Int × Int)) (p : Int × α)
    (index : Nat) (h : pyIndex (getName p.2) names = Option.some index) :
    check_step getName names keys acc p =
      (acc.1 ++ [p.1], pyUpdate acc.2 p.1 (keys.getD index 0)) := by
  unfold check_step
  rw [h]

/-- The candidate loop collects the matched source ids in order and the
matched `(source id, odoo id)` pairs. -/
theorem check_fold_eq {α : Type} (getName : α → String) (names : List String)
    (keys : List Int) (l : List (Int × α)) (acc : List Int × List (Int × Int)) :
    l.foldl (check_step getName names keys) acc =
      (acc.1 ++
        (l.filter (fun p => (pyIndex (getName p.2) names).isSome)).map Prod.fst,
       pyUpdateAll acc.2
        (l.filterMap (fun p => (pyIndex (getName p.2) names).map
          (fun index => (p.1, keys.getD index 0))))) := by
  induction l generalizing acc with
  | nil => simp [pyUpdateAll]
  | cons p rest ih =>
    rw [List.foldl_cons]
    cases hidx : pyIndex (getName p.2) names with
    | none =>
      rw [check_step_none getName names keys acc p hidx, ih]
      simp [List.filter_cons, List.filterMap_cons, hidx]
    | some index =>
      rw [check_step_some getName names keys acc p index hidx, ih]
      refine Prod.ext ?_ ?_
      · simp [List.filter_cons, hidx, List.append_assoc]
      · simp only [List.filterMap_cons, hidx, Option.map_some']
        rfl

/-- Folding the deletion list removes exactly the listed keys. -/
theorem foldl_pyDel_eq_filter {K V : Type} [DecidableEq K]
    (d : List (K × V)) (dl : List K) :
    dl.foldl (fun d k => pyDel d k) d = d.filter (fun p => decide (p.1 ∉ dl)) := by
  induction dl generalizing d with
  | nil => simp
  | cons k rest ih =>
    rw [List.foldl_cons, ih]
    unfold pyDel
    rw [List.filter_filter]
    apply List.filter_congr
    intro p _
    by_cases h1 : p.1 = k <;> by_cases h2 : p.1 ∈ rest <;> simp [h1, h2]

/-- `names.index(nm)` read through the parallel key list equals the id of
the first record bearing `nm`. -/
theorem pyIndex_getD_eq_find (result : List (Int × String)) (nm : String) :
    (pyIndex nm (result.map Prod.snd)).map
        (fun index => (result.map Prod.fst).getD index 0) =
      (result.find? (fun q => q.2 = nm)).map Prod.fst := by
  induction result with
  | nil => rfl
  | cons q rest ih =>
    by_cases hq : q.2 = nm
    · rw [List.map_cons, List.map_cons, pyIndex, if_pos hq]
      rw [List.find?_cons_of_pos _ (by simpa using hq)]
      rfl
    · rw [List.map_cons, List.map_cons, pyIndex, if_neg hq]
      rw [List.find?_cons_of_neg _ (by simpa using hq)]
      rw [← ih]
      cases pyIndex nm (rest.map Prod.snd) with
      | none => rfl
      | some index => rfl

/-- A name has an index exactly when it occurs in the name list. -/
theorem pyIndex_isSome_iff (nm : String) (names : List String) :
    (pyIndex nm names).isSome = true ↔ nm ∈ names := by
  induction names with
  | nil => simp [pyIndex]
  | cons s rest ih =>
    by_cases h : s = nm
    · simp [pyIndex, h]
    · have h' : nm ≠ s := fun hs => h hs.symm
      simp [pyIndex, h, ih, h']

/-- A key absent from a dict reads as `none`. -/
theorem pyGet_eq_none_of_not_mem {K V : Type} [DecidableEq K]
    (d : List (K × V)) (k : K) (h : k ∉ d.map Prod.fst) : pyGet d k = none := by
  induction d with
  | nil => rfl
  | cons p rest ih =>
    simp only [List.map_cons, List.mem_cons] at h
    push_neg at h
    rw [pyGet_cons, if_neg (fun hp => h.1 hp.symm)]
    exact ih h.2

/-- A key present in a dict reads as `some`. -/
theorem pyGet_isSome_of_mem {K V : Type} [DecidableEq K]
    (d : List (K × V)) (k : K) (h : k ∈ d.map Prod.fst) :
    (pyGet d k).isSome = true := by
  induction d with
  | nil => simp at h
  | cons p rest ih =>
    by_cases hp : p.1 = k
    · simp [hp]
    · rw [pyGet_cons, if_neg hp]
      apply ih
      rcases List.mem_cons.mp h with h | h
      · exact absurd h.symm hp
      · exact h

/-- Two members of a dict with pairwise-distinct keys that share a key are
the same pair. -/
theorem eq_of_mem_of_nodup_keys {K V : Type} {l : List (K × V)}
    (hnodup : (l.map Prod.fst).Nodup) {p q : K × V}
    (hp : p ∈ l) (hq : q ∈ l) (h : p.1 = q.1) : p = q := by
  induction l with
  | nil => simp at hp
  | cons r rest ih =>
    simp only [List.map_cons, List.nodup_cons] at hnodup
    rcases List.mem_cons.mp hp with hp' | hp' <;>
      rcases List.mem_cons.mp hq with hq' | hq'
    · rw [hp', hq']
    · exfalso
      apply hnodup.1
      rw [hp'] at h
      exact h ▸ List.mem_map_of_mem Prod.fst hq'
    · exfalso
      apply hnodup.1
      rw [hq'] at h
      exact h ▸ List.mem_map_of_mem Prod.fst hp'
    · exact ih hnodup.2 hp' hq'

/-- The keys of the matched-pair list are the keys of the matched
candidates, in order. -/
theorem filterMap_match_keys {K α β : Type} (f : (K × α) → Option Nat)
    (g : (K × α) → Nat → β) (l : List (K × α)) :
    (l.filterMap (fun p => (f p).map (fun i => (p.1, g p i)))).map Prod.fst =
      (l.filter (fun p => (f p).isSome)).map Prod.fst := by
  induction l with
  | nil => rfl
  | cons p rest ih =>
    cases hidx : f p with
    | none => simp [List.filterMap_cons, List.filter_cons, hidx, ih]
    | some i => simp [List.filterMap_cons, List.filter_cons, hidx, ih]

/-- C2: with the store rows having pairwise-distinct ids and the candidate
dict pairwise-distinct source ids, `check_entity_in_odoo` removes from the
candidate set exactly the candidates whose name equals some existing
record's name (the returned create set is the non-matching candidates, in
order), and its id map holds exactly the matched source ids, each bound to
the id of the first existing record bearing that candidate's name. -/
theorem c2_reconcile (α : Type) (getName : α → String)
    (result : List (Int × String)) (entity_dict : List (Int × α))
    (hres : (result.map Prod.fst).Nodup)
    (hent : (entity_dict.map Prod.fst).Nodup) :
    (check_entity_in_odoo result entity_dict getName).1 =
      entity_dict.filter
        (fun p => decide (getName p.2 ∉ result.map Prod.snd)) ∧
    (∀ p ∈ entity_dict,
      pyGet (check_entity_in_odoo result entity_dict getName).2 p.1 =
        (result.find? (fun q => q.2 = getName p.2)).map Prod.fst) ∧
    (check_entity_in_odoo result entity_dict getName).2.map Prod.fst =
      (entity_dict.filter
        (fun p => decide (getName p.2 ∈ result.map Prod.snd))).map Prod.fst := by
  have hnew : pyUpdateAll [] result = result := pyUpdateAll_nil_of_nodup result hres
  have hcheck : check_entity_in_odoo result entity_dict getName =
      ((entity_dict.foldl (check_step getName (result.map Prod.snd)
          (result.map Prod.fst)) ([], [])).1.foldl
            (fun d k => pyDel d k) entity_dict,
       (entity_dict.foldl (check_step getName (result.map Prod.snd)
          (result.map Prod.fst)) ([], [])).2) := by
    unfold check_entity_in_odoo
    rw [hnew]
  have hfold := check_fold_eq getName (result.map Prod.snd) (result.map Prod.fst)
    entity_dict ([], [])
  -- the matched-pair list and its key structure
  have hkeys_eq := filterMap_match_keys
    (fun p : Int × α => pyIndex (getName p.2) (result.map Prod.snd))
    (fun p index => (result.map Prod.fst).getD index 0) entity_dict
  have hmlist_nodup :
      ((entity_dict.filterMap (fun p =>
        (pyIndex (getName p.2) (result.map Prod.snd)).map
          (fun index => (p.1, (result.map Prod.fst).getD index 0)))).map
            Prod.fst).Nodup := by
    rw [hkeys_eq]
    exact List.Nodup.sublist
      (List.Sublist.map Prod.fst (List.filter_sublist entity_dict)) hent
  have hmap : (check_entity_in_odoo result entity_dict getName).2 =
      entity_dict.filterMap (fun p =>
        (pyIndex (getName p.2) (result.map Prod.snd)).map
          (fun index => (p.1, (result.map Prod.fst).getD index 0))) := by
    rw [hcheck]
    show (entity_dict.foldl (check_step getName (result.map Prod.snd)
      (result.map Prod.fst)) ([], [])).2 = _
    rw [hfold]
    exact pyUpdateAll_nil_of_nodup _ hmlist_nodup
  -- membership in the matched key list is exactly a name match
  have hmemiff : ∀ p ∈ entity_dict,
      (p.1 ∈ (entity_dict.filter (fun p =>
        (pyIndex (getName p.2) (result.map Prod.snd)).isSome)).map Prod.fst ↔
       getName p.2 ∈ result.map Prod.snd) := by
    intro p hp
    constructor
    · intro hmem
      rcases List.mem_map.mp hmem with ⟨q, hqmem, hqk⟩
      have hqf := List.mem_filter.mp hqmem
      have hqp : q = p := eq_of_mem_of_nodup_keys hent hqf.1 hp hqk
      rw [hqp] at hqf
      exact (pyIndex_isSome_iff (getName p.2) (result.map Prod.snd)).mp hqf.2
    · intro hmem
      refine List.mem_map.mpr ⟨p, List.mem_filter.mpr ⟨hp, ?_⟩, rfl⟩
      exact (pyIndex_isSome_iff (getName p.2) (result.map Prod.snd)).mpr hmem
  refine ⟨?_, ?_, ?_⟩
  · rw [hcheck]
    show (entity_dict.foldl (check_step getName (result.map Prod.snd)
        (result.map Prod.fst)) ([], [])).1.foldl
          (fun d k => pyDel d k) entity_dict = _
    rw [hfold]
    show ([] ++ (entity_dict.filter (fun p : Int × α =>
        (pyIndex (getName p.2) (result.map Prod.snd)).isSome)).map
          Prod.fst).foldl (fun d k => pyDel d k) entity_dict = _
    rw [List.nil_append, foldl_pyDel_eq_filter]
    apply List.filter_congr
    intro p hp
    exact decide_eq_decide.mpr (not_congr (hmemiff p hp))
  · intro p hp
    rw [hmap]
    rw [← pyIndex_getD_eq_find result (getName p.2)]
    cases hidx : pyIndex (getName p.2) (result.map Prod.snd) with
    | none =>
      rw [Option.map_none']
      apply pyGet_eq_none_of_not_mem
      rw [hkeys_eq]
      intro hmem
      rcases List.mem_map.mp hmem with ⟨q, hqmem, hqk⟩
      have hqf := List.mem_filter.mp hqmem
      have hqp : q = p := eq_of_mem_of_nodup_keys hent hqf.1 hp hqk
      rw [hqp, hidx] at hqf
      simp at hqf
    | some index =>
      rw [Option.map_some']
      have hpair : ((p.1, (result.map Prod.fst).getD index 0) : Int × Int) ∈
          entity_dict.filterMap (fun p =>
            (pyIndex (getName p.2) (result.map Prod.snd)).map
              (fun index => (p.1, (result.map Prod.fst).getD index 0))) := by
        apply List.mem_filterMap.mpr
        exact ⟨p, hp, by rw [hidx]; rfl⟩
      exact pyGet_of_mem_nodup hmlist_nodup hpair
  · rw [hmap, hkeys_eq]
    apply congrArg (List.map Prod.fst)
    apply List.filter_congr
    intro p hp
    cases h : (pyIndex (getName p.2) (result.map Prod.snd)).isSome with
    | true =>
      have hmem := (pyIndex_isSome_iff (getName p.2) (result.map Prod.snd)).mp h
      simp [hmem]
    | false =>
      have hnm : getName p.2 ∉ result.map Prod.snd := by
        intro hmem
        have hs := (pyIndex_isSome_iff (getName p.2) (result.map Prod.snd)).mpr hmem
        rw [h] at hs
        exact absurd hs (by simp)
      simp [hnm]

/-- Store rows for the C2 witness: two records share the name
`"Existing"`, so first match wins. -/
def exampleStoreRows : List (Int × String) := [(10, "Existing"), (11, "Existing")]

def exampleCandidates : List (Int × String) := [(1, "Existing"), (2, "New")]

/-- Witness for C2: the matched candidate is removed (only `"New"`
remains for the create call) and its id map entry is the id of the first
existing record named `"Existing"`. -/
theorem c2_reconcile_witness :
    (check_entity_in_odoo exampleStoreRows exampleCandidates
        (fun s => s)).1 =
      exampleCandidates.filter
        (fun p => decide (p.2 ∉ exampleStoreRows.map Prod.snd)) ∧
    pyGet (check_entity_in_odoo exampleStoreRows exampleCandidates
        (fun s => s)).2 1 =
      (exampleStoreRows.find? (fun q => q.2 = "Existing")).map Prod.fst := by
  have h := c2_reconcile String (fun s => s) exampleStoreRows exampleCandidates
    (by decide) (by decide)
  exact ⟨h.1, h.2.1 (1, "Existing") (by decide)⟩

/-- Reading a zip of pairwise-distinct keys with equally many values at
the `i`-th key yields the `i`-th value. -/
theorem pyGet_zip_getD (keys : List Int) (vals : List Int)
    (hnodup : keys.Nodup) (hlen : vals.length = keys.length)
    (i : Nat) (hi : i < keys.length) :
    pyGet (keys.zip vals) (keys.getD i 0) = some (vals.getD i 0) := by
  induction keys generalizing vals i with
  | nil => simp at hi
  | cons k krest ih =>
    cases vals with
    | nil => simp at hlen
    | cons v vrest =>
      rw [List.zip_cons_cons]
      cases i with
      | zero => simp
      | succ i =>
        have hi' : i < krest.length := Nat.lt_of_succ_lt_succ hi
        have hlen' : vrest.length = krest.length := by simpa using hlen
        have hkey_mem : krest.getD i 0 ∈ krest := by
          rw [List.getD_eq_getElem _ _ hi']
          exact List.getElem_mem hi'
        have hkne : ¬ k = krest.getD i 0 := by
          intro hk
          exact (List.nodup_cons.mp hnodup).1 (hk ▸ hkey_mem)
        rw [List.getD_cons_succ, List.getD_cons_succ, pyGet_cons, if_neg hkne]
        exact ih vrest (List.Nodup.of_cons hnodup) hlen' i hi'

/-- C6: with the store returning one id per submitted record,
`upload_entity_info_into_oddo` merges into the id map exactly the pairs of
the `i`-th submitted source id with the `i`-th returned target id, in
order, and every pair recorded during reconciliation is still present in
the returned map. -/
theorem c6_upload (α : Type) (entity_dict : List (Int × α))
    (ids_entity_dict : List (Int × Int)) (entity_odoo_id : List Int)
    (hent : (entity_dict.map Prod.fst).Nodup)
    (hids : (ids_entity_dict.map Prod.fst).Nodup)
    (hlen : entity_odoo_id.length = entity_dict.length)
    (hdisj : ∀ k ∈ entity_dict.map Prod.fst, k ∉ ids_entity_dict.map Prod.fst) :
    upload_entity_info_into_oddo entity_dict ids_entity_dict entity_odoo_id =
      Option.some
        (ids_entity_dict ++ (entity_dict.map Prod.fst).zip entity_odoo_id) ∧
    (∀ p ∈ ids_entity_dict,
      pyGet (ids_entity_dict ++ (entity_dict.map Prod.fst).zip entity_odoo_id)
        p.1 = some p.2) ∧
    (∀ i, i < entity_dict.length →
      pyGet (ids_entity_dict ++ (entity_dict.map Prod.fst).zip entity_odoo_id)
        ((entity_dict.map Prod.fst).getD i 0) =
          some (entity_odoo_id.getD i 0)) := by
  have hzkeys : ((entity_dict.map Prod.fst).zip entity_odoo_id).map Prod.fst =
      entity_dict.map Prod.fst := by
    apply List.map_fst_zip
    rw [List.length_map, hlen]
  have hznodup :
      (((entity_dict.map Prod.fst).zip entity_odoo_id).map Prod.fst).Nodup := by
    rw [hzkeys]
    exact hent
  have hinner : pyUpdateAll [] ((entity_dict.map Prod.fst).zip entity_odoo_id) =
      (entity_dict.map Prod.fst).zip entity_odoo_id :=
    pyUpdateAll_nil_of_nodup _ hznodup
  have houter : pyUpdateAll ids_entity_dict
      ((entity_dict.map Prod.fst).zip entity_odoo_id) =
      ids_entity_dict ++ (entity_dict.map Prod.fst).zip entity_odoo_id := by
    apply pyUpdateAll_of_disjoint
    · intro k hk
      rw [hzkeys] at hk
      exact hdisj k hk
    · exact hznodup
  have hall : entity_dict.all (fun p =>
      (pyGet (ids_entity_dict ++ (entity_dict.map Prod.fst).zip entity_odoo_id)
        p.1).isSome) = true := by
    rw [List.all_eq_true]
    intro p hp
    apply pyGet_isSome_of_mem
    rw [List.map_append, hzkeys]
    exact List.mem_append_right _ (List.mem_map_of_mem Prod.fst hp)
  refine ⟨?_, ?_, ?_⟩
  · unfold upload_entity_info_into_oddo
    rw [hinner, houter]
    show (if entity_dict.all (fun p =>
        (pyGet (ids_entity_dict ++ (entity_dict.map Prod.fst).zip entity_odoo_id)
          p.1).isSome) then
        Option.some
          (ids_entity_dict ++ (entity_dict.map Prod.fst).zip entity_odoo_id)
      else Option.none) = _
    rw [if_pos hall]
  · intro p hp
    rw [pyGet_append, pyGet_of_mem_nodup hids hp]
    rfl
  · intro i hi
    have hkey_mem : (entity_dict.map Prod.fst).getD i 0 ∈
        entity_dict.map Prod.fst := by
      have hi' : i < (entity_dict.map Prod.fst).length := by
        rw [List.length_map]
        exact hi
      rw [List.getD_eq_getElem _ _ hi']
      exact List.getElem_mem hi'
    rw [pyGet_append,
      pyGet_eq_none_of_not_mem ids_entity_dict _ (hdisj _ hkey_mem),
      Option.none_orElse']
    exact pyGet_zip_getD (entity_dict.map Prod.fst) entity_odoo_id
      hent (by rw [List.length_map]; exact hlen) i
      (by rw [List.length_map]; exact hi)

/-- Witness for C6: two remaining candidates and one reconciliation pair;
the create call returns ids `101, 102`, which are zipped onto source ids
`1, 2`, and the reconciliation pair `(7, 70)` survives. -/
theorem c6_upload_witness :
    upload_entity_info_into_oddo [((1 : Int), "A"), (2, "B")]
        [((7 : Int), (70 : Int))] [101, 102] =
      Option.some ([((7 : Int), (70 : Int))] ++
        ([((1 : Int), "A"), (2, "B")].map Prod.fst).zip [101, 102]) ∧
    pyGet ([((7 : Int), (70 : Int))] ++
        ([((1 : Int), "A"), (2, "B")].map Prod.fst).zip [101, 102]) 7 =
      some (70 : Int) := by
  have h := c6_upload String [(1, "A"), (2, "B")] [(7, 70)] [101, 102]
    (by decide) (by decide) (by decide) (by decide)
  exact ⟨h.1, h.2.1 (7, 70) (by decide)⟩
